import Mathlib

/-!
Verification of the cloud_top module (functions cloud_base_top and
var_below_cloud_top).

The embedding models one atmospheric column, since every operation of the
source is an elementwise map or a reduction along the single dimension lev:
columns are fully independent, so a per-column model captures the whole
computation.  A floating-point value is modelled as `Option ℚ`, with `none`
standing for IEEE NaN: every comparison involving NaN is false, which the
comparison functions below reproduce.  The source performs no rational
arithmetic at all, only comparisons, so `ℚ` is an exact model of the float
values appearing in the claims.

The numpy reductions used by the source return the index of the first
extremal element: argmax over booleans is the index of the first True entry
(0 when there is none), argmin over integers is the index of the first
minimal entry.  These are modelled by `argmaxB` and `argminN`.  On an empty
lev axis the source raises (numpy argmax/argmin of an empty axis), so the
theorems about the returned arrays carry a nonemptiness hypothesis.
-/

/-- A float value: `none` models IEEE NaN, `some q` an ordinary value. -/
abbrev F : Type := Option ℚ

/-- Elementwise a > b as numpy evaluates it: false when either side is NaN. -/
def fgt : F → F → Bool
  | some x, some y => decide (x > y)
  | _, _ => false

/-- Elementwise a < b as numpy evaluates it: false when either side is NaN. -/
def flt : F → F → Bool
  | some x, some y => decide (x < y)
  | _, _ => false

/-- Comparison of a (non-NaN) lev coordinate against a float: a < b, false when b is NaN. -/
def qlt (a : ℚ) : F → Bool
  | some y => decide (a < y)
  | none => false

/-- Comparison of a (non-NaN) lev coordinate against a float: a >= b, false when b is NaN. -/
def qge (a : ℚ) : F → Bool
  | some y => decide (a ≥ y)
  | none => false

/-- numpy argmax over a boolean vector: index of the first true entry, 0 when
all entries are false. -/
def argmaxB (l : List Bool) : ℕ :=
  if l.any (fun b => b) then l.findIdx (fun b => b) else 0

/-- Scan underlying argmin: carries the best value bv, the index bi where it
was first seen, and the index i of the next element. -/
def argminAux : List ℕ → ℕ → ℕ → ℕ → ℕ
  | [], _, bi, _ => bi
  | x :: xs, bv, bi, i => if x < bv then argminAux xs x i (i + 1) else argminAux xs bv bi (i + 1)

/-- numpy argmin over an integer vector: index of the first minimal entry. -/
def argminN : List ℕ → ℕ
  | [] => 0
  | x :: xs => argminAux xs x 0 1

/-- The 1-D (per level) cloud mask of cloud_base_top: clw > clw_thresh. -/
def clw_mask (clw : List F) (clw_thresh : F) : List Bool :=
  clw.map (fun x => fgt x clw_thresh)

/-- The per-column cloud presence mask of cloud_base_top:
xr.where((clw < clw_thresh).all(dim lev), False, True). -/
def clt_mask (clw : List F) (clw_thresh : F) : Bool :=
  ! ((clw.map (fun x => flt x clw_thresh)).all (fun b => b))

/-- Index of the first level above cloud base: clw_mask.argmax(dim lev). -/
def idx_acb (clw : List F) (clw_thresh : F) : ℕ :=
  argmaxB (clw_mask clw clw_thresh)

/-- lev coordinate of the first level above cloud base, NaN where no clouds:
clw_mask.idxmax(dim lev).where(clt_mask).  idxmax returns the lev coordinate
at the first maximum, i.e. at index argmax. -/
def lev_acb (lev : List ℚ) (clw : List F) (clw_thresh : F) : F :=
  if clt_mask clw clw_thresh then some (lev.getD (idx_acb clw clw_thresh) 0) else none

/-- The auxiliary cloud-top mask of cloud_base_top:
xr.where(clw_mask.lev < lev_acb, clw_mask, 0) + xr.where(clw_mask.lev >= lev_acb, 1, 0).
Entry i is an integer built from the lev coordinate at position i. -/
def bct_mask (lev : List ℚ) (clw : List F) (clw_thresh : F) : List ℕ :=
  (List.range clw.length).map (fun i =>
    (if qlt (lev.getD i 0) (lev_acb lev clw clw_thresh) then
      (if (clw_mask clw clw_thresh).getD i false then 1 else 0)
     else 0)
    + (if qge (lev.getD i 0) (lev_acb lev clw clw_thresh) then 1 else 0))

/-- Index above cloud top: bct_mask.argmin(dim lev). -/
def idx_act (lev : List ℚ) (clw : List F) (clw_thresh : F) : ℕ :=
  argminN (bct_mask lev clw clw_thresh)

/-- Result record of cloud_base_top for one column.  The numpy results are
non-negative int64 indices, modelled as ℕ. -/
structure CBTout where
  idx_acb : ℕ
  idx_bct : ℕ
  clt_mask : Bool

/-- One column of cloud_base_top from src/cloud_top.py.  lev is the lev
coordinate vector of clw, clw the cloud liquid water profile, clw_thresh the
threshold (the source defaults it to 1.0e-5).  The final index is
np.maximum(idx_act - 1, 0), which truncated ℕ subtraction renders exactly. -/
def cloud_base_top (lev : List ℚ) (clw : List F) (clw_thresh : F) : CBTout :=
  ⟨idx_acb clw clw_thresh, idx_act lev clw clw_thresh - 1, clt_mask clw clw_thresh⟩

/-- One column of var_below_cloud_top from src/cloud_top.py.  var is cut to
its first 31 levels (var.isel(lev=slice(0, 31)), the np.choose limit), the
selection index is clipped into range (np.choose with clip mode clamps into
[0, len - 1]), and non-cloudy columns are overwritten with NaN.  The
transposes and the debug print of the source do not affect the per-column
value.  np.choose raises on an empty choice list, so theorems carry a
nonemptiness hypothesis on var. -/
def var_below_cloud_top (clt_mask_col : Bool) (idx_bct_col : ℤ) (var : List F) : F :=
  let var_to_choose : List F := var.take 31
  let clipped : ℕ := (min (max idx_bct_col 0) ((var_to_choose.length : ℤ) - 1)).toNat
  let chosen : F := var_to_choose.getD clipped none
  if clt_mask_col then chosen else none

/-- The threshold 1.0e-5 of the concrete scenarios, as an exact rational. -/
def thresh1em5 : ℚ := ⟨1, 100000, by decide, Nat.coprime_one_left _⟩

/-- The value 2.0e-5 of the concrete scenarios, as an exact rational. -/
def val2em5 : ℚ := ⟨1, 50000, by decide, Nat.coprime_one_left _⟩

/-- The value 3.0e-5 of the concrete scenarios, as an exact rational. -/
def val3em5 : ℚ := ⟨3, 100000, by decide, by decide⟩

/-- Sanity identities: the scenario constants are the advertised decimals. -/
theorem scenario_constants_eq :
    thresh1em5 = 1 / 100000 ∧ val2em5 = 2 / 100000 ∧ val3em5 = 3 / 100000 := by
  refine ⟨?_, ?_, ?_⟩ <;>
    · apply (Rat.num_div_den _).symm.trans
      norm_num [thresh1em5, val2em5, val3em5]

section Helpers

/-- If the running best value is a lower bound for the rest of the list, the
argmin scan keeps the index where the best value was first seen. -/
theorem argminAux_of_forall_le (xs : List ℕ) :
    ∀ bv bi i, (∀ y ∈ xs, bv ≤ y) → argminAux xs bv bi i = bi := by
  induction xs with
  | nil => intro bv bi i _; rfl
  | cons x xs ih =>
      intro bv bi i h
      have hx : ¬ x < bv := Nat.not_lt.mpr (h x (List.mem_cons_self x xs))
      simp only [argminAux, if_neg hx]
      exact ih bv bi (i + 1) (fun y hy => h y (List.mem_cons_of_mem x hy))

/-- argmin of a vector whose head is a lower bound of all entries is 0. -/
theorem argminN_eq_zero (x : ℕ) (xs : List ℕ) (h : ∀ y ∈ xs, x ≤ y) :
    argminN (x :: xs) = 0 :=
  argminAux_of_forall_le xs x 0 1 h

/-- The argmin scan returns the carried index or an index of the remaining
segment. -/
theorem argminAux_cases (xs : List ℕ) :
    ∀ bv bi i, argminAux xs bv bi i = bi ∨
      (i ≤ argminAux xs bv bi i ∧ argminAux xs bv bi i < i + xs.length) := by
  induction xs with
  | nil => intro bv bi i; exact Or.inl rfl
  | cons x xs ih =>
      intro bv bi i
      simp only [argminAux]
      by_cases hx : x < bv
      · rw [if_pos hx]
        rcases ih x i (i + 1) with h | ⟨h1, h2⟩
        · right
          rw [h]
          exact ⟨Nat.le_refl i, by simp only [List.length_cons]; omega⟩
        · right
          exact ⟨Nat.le_of_lt (Nat.lt_of_lt_of_le (Nat.lt_succ_self i) h1),
            by simp only [List.length_cons]; omega⟩
      · rw [if_neg hx]
        rcases ih bv bi (i + 1) with h | ⟨h1, h2⟩
        · exact Or.inl h
        · right
          exact ⟨Nat.le_of_lt (Nat.lt_of_lt_of_le (Nat.lt_succ_self i) h1),
            by simp only [List.length_cons]; omega⟩

/-- argmin of a nonempty vector is a valid index. -/
theorem argminN_lt (l : List ℕ) (h : l ≠ []) : argminN l < l.length := by
  match l with
  | [] => exact absurd rfl h
  | x :: xs =>
      show argminAux xs x 0 1 < xs.length + 1
      rcases argminAux_cases xs x 0 1 with h0 | ⟨_, h2⟩
      · omega
      · omega

/-- argmax of a nonempty boolean vector is a valid index. -/
theorem argmaxB_lt (l : List Bool) (h : l ≠ []) : argmaxB l < l.length := by
  unfold argmaxB
  by_cases ha : l.any (fun b => b) = true
  · rw [if_pos ha]
    exact List.findIdx_lt_length_of_exists (by simpa using ha)
  · rw [if_neg ha]
    exact List.length_pos.mpr h

/-- When argmax is positive, the head of the vector is false. -/
theorem argmaxB_pos_head (l : List Bool) (h : 0 < argmaxB l) : l.getD 0 false = false := by
  match l with
  | [] => simp
  | b :: bs =>
      unfold argmaxB at h
      by_cases ha : (b :: bs).any (fun b => b) = true
      · rw [if_pos ha] at h
        rw [List.findIdx_cons] at h
        cases b with
        | false => rfl
        | true => simp at h
      · rw [if_neg ha] at h
        exact absurd h (by omega)

/-- argmax over a mapped boolean vector: when some element satisfies p, the
element at the argmax satisfies p and no earlier element does. -/
theorem argmaxB_map_first (p : F → Bool) (l : List F) (h : l.any p = true) :
    p (l.getD (argmaxB (l.map p)) none) = true ∧
      ∀ j, j < argmaxB (l.map p) → p (l.getD j none) = false := by
  induction l with
  | nil => simp at h
  | cons x xs ih =>
      by_cases hx : p x = true
      · have harg : argmaxB ((x :: xs).map p) = 0 := by
          unfold argmaxB
          rw [if_pos (by simp [hx])]
          simp [List.findIdx_cons, hx]
        rw [harg]
        exact ⟨hx, fun j hj => absurd hj (by omega)⟩
      · have hx' : p x = false := by simpa using hx
        have hxs : xs.any p = true := by
          rcases (List.any_eq_true).mp h with ⟨y, hy, hpy⟩
          rcases List.mem_cons.mp hy with rfl | hy'
          · exact absurd hpy hx
          · exact List.any_eq_true.mpr ⟨y, hy', hpy⟩
        have hanymap : (xs.map p).any (fun b => b) = true := by
          simpa using hxs
        have harg : argmaxB ((x :: xs).map p) = argmaxB (xs.map p) + 1 := by
          unfold argmaxB
          rw [if_pos (by simp [hx', hanymap]), if_pos hanymap]
          simp [List.findIdx_cons, hx']
        rw [harg]
        rcases ih hxs with ⟨h1, h2⟩
        refine ⟨by simpa using h1, ?_⟩
        intro j hj
        match j with
        | 0 => simpa using hx'
        | j + 1 =>
            have : j < argmaxB (xs.map p) := by omega
            simpa using h2 j this

/-- Head of a vector built by mapping over List.range n, for positive n. -/
theorem getD_zero_map_range (f : ℕ → ℕ) (n : ℕ) (hn : 0 < n) :
    ((List.range n).map f).getD 0 0 = f 0 := by
  match n with
  | 0 => omega
  | m + 1 =>
      rw [List.range_succ_eq_map]
      rfl

/-- Members of a vector built by mapping over List.range n. -/
theorem mem_map_range (f : ℕ → ℕ) (n : ℕ) (y : ℕ) (hy : y ∈ (List.range n).map f) :
    ∃ i, i < n ∧ y = f i := by
  rcases List.mem_map.mp hy with ⟨i, hi, rfl⟩
  exact ⟨i, List.mem_range.mp hi, rfl⟩

/-- getD through List.map for indices in range. -/
theorem getD_map_of_lt (g : F → Bool) (l : List F) :
    ∀ i, i < l.length → (l.map g).getD i false = g (l.getD i none) := by
  induction l with
  | nil => intro i hi; simp at hi
  | cons x xs ih =>
      intro i hi
      match i with
      | 0 => rfl
      | i + 1 =>
          have : i < xs.length := by simpa using hi
          simpa using ih i this

/-- A strictly below-threshold value never strictly exceeds the threshold. -/
theorem fgt_eq_false_of_flt (x t : F) (h : flt x t = true) : fgt x t = false := by
  cases x with
  | none => rfl
  | some v =>
      cases t with
      | none => rfl
      | some w =>
          simp only [flt, decide_eq_true_eq] at h
          simp only [fgt, decide_eq_false_iff_not]
          exact not_lt_of_gt h

/-- Strictly increasing lev coordinates compared through getD. -/
theorem pairwise_getD_lt (lev : List ℚ) (hmono : lev.Pairwise (· < ·))
    (i j : ℕ) (hij : i < j) (hj : j < lev.length) :
    lev.getD i 0 < lev.getD j 0 := by
  have hi : i < lev.length := Nat.lt_trans hij hj
  rw [List.getD_eq_getElem lev 0 hi, List.getD_eq_getElem lev 0 hj]
  exact (List.pairwise_iff_getElem.mp hmono) i j hi hj hij

end Helpers

/-- Projection of cloud_base_top: the above-cloud-base index. -/
theorem cloud_base_top_idx_acb_eq (lev : List ℚ) (clw : List F) (t : F) :
    (cloud_base_top lev clw t).idx_acb = idx_acb clw t := rfl

/-- Projection of cloud_base_top: the below-cloud-top index. -/
theorem cloud_base_top_idx_bct_eq (lev : List ℚ) (clw : List F) (t : F) :
    (cloud_base_top lev clw t).idx_bct = idx_act lev clw t - 1 := rfl

/-- Projection of cloud_base_top: the cloud presence mask. -/
theorem cloud_base_top_clt_mask_eq (lev : List ℚ) (clw : List F) (t : F) :
    (cloud_base_top lev clw t).clt_mask = clt_mask clw t := rfl

/-- Claim C2: evaluation of cloud_base_top on scenario 1 of the spec,
CLW = [0, 0, 2e-5, 3e-5, 0] with lev coordinates 0..4 (the index-0-at-top,
coordinate-increases-with-index convention of the spec) and threshold 1e-5.
The code returns clt_mask = True and idx_acb = 2 as claimed, but
idx_bct = 0, not 3: the levels above the first cloudy level are never
cloudy, so bct_mask = [0, 0, 1, 1, 1], its argmin is 0, and
np.maximum(0 - 1, 0) = 0.  The value 3 demanded by the claim is the level
directly below cloud top, which is what the docstring of the source says
idx_bct holds, so the code contradicts its own documentation here. -/
theorem cloud_base_top_scenario1_eval :
    (cloud_base_top [0, 1, 2, 3, 4]
      [some 0, some 0, some val2em5, some val3em5, some 0] (some thresh1em5)).idx_acb = 2
    ∧ (cloud_base_top [0, 1, 2, 3, 4]
      [some 0, some 0, some val2em5, some val3em5, some 0] (some thresh1em5)).idx_bct = 0
    ∧ (cloud_base_top [0, 1, 2, 3, 4]
      [some 0, some 0, some val2em5, some val3em5, some 0] (some thresh1em5)).clt_mask
        = true := by
  decide

/-- Claim C3, counterexample: on scenario 4 of the spec,
CLW = [0, 0, 0, 0, 2e-5] with lev coordinates 0..4 and threshold 1e-5, the
code does return clt_mask = True and idx_acb = 4, but idx_bct is not 4.
Indeed max(idx_act - 1, 0) is at most idx_act, and argmin over 5 entries is
at most 4, so max(idx_act - 1, 0) can never reach 4; here bct_mask is
[0, 0, 0, 0, 1], idx_act = 0 and idx_bct = 0. -/
theorem cloud_base_top_scenario4_counterexample :
    (cloud_base_top [0, 1, 2, 3, 4]
      [some 0, some 0, some 0, some 0, some val2em5] (some thresh1em5)).clt_mask = true
    ∧ (cloud_base_top [0, 1, 2, 3, 4]
      [some 0, some 0, some 0, some 0, some val2em5] (some thresh1em5)).idx_acb = 4
    ∧ ¬ ((cloud_base_top [0, 1, 2, 3, 4]
      [some 0, some 0, some 0, some 0, some val2em5] (some thresh1em5)).idx_bct = 4) := by
  decide

/-- Claim C3, amended: on CLW = [0, 0, 0, 0, 2e-5] (cloud only at the bottom
level) with lev coordinates 0..4 and threshold 1e-5, cloud_base_top returns
clt_mask = True, idx_acb = 4 and idx_bct = 0: the top-down argmin finds the
first zero of bct_mask at position 0, and the clamp max(0 - 1, 0) = 0 fires
exactly as the underflow guard. -/
theorem cloud_base_top_scenario4_eval :
    (cloud_base_top [0, 1, 2, 3, 4]
      [some 0, some 0, some 0, some 0, some val2em5] (some thresh1em5)).idx_acb = 4
    ∧ (cloud_base_top [0, 1, 2, 3, 4]
      [some 0, some 0, some 0, some 0, some val2em5] (some thresh1em5)).idx_bct = 0
    ∧ (cloud_base_top [0, 1, 2, 3, 4]
      [some 0, some 0, some 0, some 0, some val2em5] (some thresh1em5)).clt_mask = true := by
  decide

/-- Claim C4, counterexample: a single-level column whose CLW equals the
threshold exactly.  No level strictly exceeds the threshold, yet the
returned clt_mask is True, because the source computes the mask as
NOT(all(clw < threshold)) rather than any(clw > threshold). -/
theorem clt_mask_equal_threshold_counterexample :
    (cloud_base_top [0] [some thresh1em5] (some thresh1em5)).clt_mask = true
    ∧ ([some thresh1em5] : List F).any (fun x => fgt x (some thresh1em5)) = false := by
  decide

/-- Claim C4, amended: for every profile and threshold, the clt_mask
returned by cloud_base_top is True iff at least one level fails the strict
comparison CLW < threshold, that is, iff some level is greater than or
equal to the threshold or is NaN (with a NaN threshold every nonempty
column counts).  This coincides with the claimed condition, at least one
level with CLW > threshold, except when a NaN is present or the column
maximum equals the threshold exactly. -/
theorem clt_mask_iff_exists_not_lt (lev : List ℚ) (clw : List F) (t : F)
    (hne : clw ≠ []) :
    (cloud_base_top lev clw t).clt_mask = true ↔ ∃ x ∈ clw, flt x t = false := by
  simp only [cloud_base_top_clt_mask_eq, clt_mask, Bool.not_eq_true']
  rw [List.all_eq_false]
  constructor
  · rintro ⟨b, hb, hbf⟩
    rcases List.mem_map.mp hb with ⟨x, hx, rfl⟩
    exact ⟨x, hx, by simpa using hbf⟩
  · rintro ⟨x, hx, hxf⟩
    exact ⟨flt x t, List.mem_map.mpr ⟨x, hx, rfl⟩, by simpa using hxf⟩

/-- Claim C4, witness for the amended statement: a column equal to the
threshold everywhere has clt_mask True. -/
theorem clt_mask_iff_exists_not_lt_witness :
    (cloud_base_top [0] [some 1] (some 1)).clt_mask = true :=
  (clt_mask_iff_exists_not_lt [0] [some 1] (some 1) (by decide)).mpr
    ⟨some 1, by decide, by decide⟩

/-- Claim C9: raising the threshold can only keep clt_mask the same or flip
it from True to False, never from False to True: if the mask is False at
threshold t1 and t1 is at most t2, it is False at threshold t2 as well. -/
theorem clt_mask_threshold_monotone (lev : List ℚ) (clw : List F) (t1 t2 : ℚ)
    (h12 : t1 ≤ t2)
    (hfalse : (cloud_base_top lev clw (some t1)).clt_mask = false) :
    (cloud_base_top lev clw (some t2)).clt_mask = false := by
  simp only [cloud_base_top_clt_mask_eq, clt_mask, Bool.not_eq_false'] at hfalse ⊢
  rw [List.all_eq_true] at hfalse ⊢
  intro b hb
  rcases List.mem_map.mp hb with ⟨x, hx, rfl⟩
  have h1 : flt x (some t1) = true := by
    simpa using hfalse _ (List.mem_map.mpr ⟨x, hx, rfl⟩)
  cases x with
  | none => simp [flt] at h1
  | some v =>
      simp only [flt, decide_eq_true_eq] at h1 ⊢
      exact lt_of_lt_of_le h1 h12

/-- Claim C9, witness: a cloud-free column stays cloud-free at a higher
threshold. -/
theorem clt_mask_threshold_monotone_witness :
    (cloud_base_top [0] [some 0] (some 2)).clt_mask = false :=
  clt_mask_threshold_monotone [0] [some 0] 1 2 (by norm_num) (by decide)

/-- Claim C10: a column containing a NaN, or a column containing the
threshold value itself (in particular one whose maximum equals the
threshold), gets clt_mask = True even when no level strictly exceeds the
threshold: the mask is NOT(all(clw < threshold)) and NaN as well as an
exactly-equal value both fail clw < threshold. -/
theorem clt_mask_true_of_nan_or_threshold_member (lev : List ℚ) (clw : List F)
    (t : ℚ) (h : none ∈ clw ∨ some t ∈ clw) :
    (cloud_base_top lev clw (some t)).clt_mask = true := by
  simp only [cloud_base_top_clt_mask_eq, clt_mask, Bool.not_eq_true']
  rw [List.all_eq_false]
  rcases h with h | h
  · exact ⟨flt none (some t), List.mem_map.mpr ⟨none, h, rfl⟩, by simp [flt]⟩
  · exact ⟨flt (some t) (some t), List.mem_map.mpr ⟨some t, h, rfl⟩, by simp [flt]⟩

/-- Claim C10, witness: a column whose only value is NaN, with no level
exceeding the threshold, still has clt_mask True. -/
theorem clt_mask_true_of_nan_or_threshold_member_witness :
    (cloud_base_top [0] [none] (some thresh1em5)).clt_mask = true :=
  clt_mask_true_of_nan_or_threshold_member [0] [none] thresh1em5 (Or.inl (by decide))

/-- Claim C5, counterexample: a column in which no level strictly exceeds
the threshold (the second level equals it exactly) still gets
clt_mask = True, so the smallest level index at which CLW exceeds the
threshold does not exist at all, while idx_acb falls back to 0: the claimed
characterisation of idx_acb under clt_mask = True has no witnessing index
here. -/
theorem idx_acb_first_exceeding_counterexample :
    (cloud_base_top [0, 1] [some 0, some thresh1em5] (some thresh1em5)).clt_mask = true
    ∧ (cloud_base_top [0, 1] [some 0, some thresh1em5] (some thresh1em5)).idx_acb = 0
    ∧ fgt (some 0) (some thresh1em5) = false
    ∧ fgt (some thresh1em5) (some thresh1em5) = false := by
  decide

/-- Claim C5, amended: whenever some level strictly exceeds the threshold
(a condition that clt_mask = True does not guarantee, see the
counterexample), idx_acb is the smallest level index at which CLW exceeds
the threshold: the level at idx_acb exceeds it and no smaller index does. -/
theorem idx_acb_eq_first_exceeding (lev : List ℚ) (clw : List F) (t : F)
    (h : clw.any (fun x => fgt x t) = true) :
    fgt (clw.getD (cloud_base_top lev clw t).idx_acb none) t = true
    ∧ ∀ j, j < (cloud_base_top lev clw t).idx_acb → fgt (clw.getD j none) t = false := by
  simp only [cloud_base_top_idx_acb_eq, idx_acb, clw_mask]
  exact argmaxB_map_first (fun x => fgt x t) clw h

/-- Claim C5, witness for the amended statement: in the column [0, 1] with
threshold 0, the level found by idx_acb (level 1) exceeds the threshold. -/
theorem idx_acb_eq_first_exceeding_witness :
    fgt (([some 0, some 1] : List F).getD
      (cloud_base_top [0, 1] [some 0, some 1] (some 0)).idx_acb none) (some 0) = true :=
  (idx_acb_eq_first_exceeding [0, 1] [some 0, some 1] (some 0) (by decide)).1

/-- Claim C6: a column with clt_mask = False gets idx_acb = 0 and
idx_bct = 0 from cloud_base_top, and var_below_cloud_top yields the NaN
sentinel for it whatever var holds.  The nonemptiness hypotheses mark the
error-free domain of the source: numpy argmax raises on an empty lev axis
and np.choose raises on an empty choice list. -/
theorem no_cloud_outputs_zero_and_nan (lev : List ℚ) (clw : List F) (t : F)
    (var : List F) (hne : clw ≠ []) (hvar : var ≠ [])
    (hclt : (cloud_base_top lev clw t).clt_mask = false) :
    (cloud_base_top lev clw t).idx_acb = 0
    ∧ (cloud_base_top lev clw t).idx_bct = 0
    ∧ var_below_cloud_top (cloud_base_top lev clw t).clt_mask
        ((cloud_base_top lev clw t).idx_bct : ℤ) var = none := by
  rw [cloud_base_top_clt_mask_eq] at hclt
  have hall : ∀ x ∈ clw, flt x t = true := by
    have h1 : (clw.map (fun x => flt x t)).all (fun b => b) = true := by
      have := hclt
      unfold clt_mask at this
      simpa [Bool.not_eq_false'] using this
    rw [List.all_eq_true] at h1
    intro x hx
    simpa using h1 _ (List.mem_map.mpr ⟨x, hx, rfl⟩)
  have hany : (clw_mask clw t).any (fun b => b) = false := by
    rw [List.any_eq_false]
    intro b hb
    rcases List.mem_map.mp hb with ⟨x, hx, rfl⟩
    simpa using fgt_eq_false_of_flt x t (hall x hx)
  have hacb : idx_acb clw t = 0 := by
    unfold idx_acb argmaxB
    rw [hany]
    simp
  have hlevacb : lev_acb lev clw t = none := by
    unfold lev_acb
    rw [hclt]
    simp
  have hbct : bct_mask lev clw t = (List.range clw.length).map (fun _ => 0) := by
    unfold bct_mask
    rw [hlevacb]
    simp [qlt, qge]
  have hact : idx_act lev clw t = 0 := by
    unfold idx_act
    rw [hbct]
    obtain ⟨m, hm⟩ : ∃ m, clw.length = m + 1 :=
      ⟨clw.length - 1, by have := List.length_pos.mpr hne; omega⟩
    rw [hm, List.range_succ_eq_map, List.map_cons]
    exact argminN_eq_zero 0 _ (fun y _ => Nat.zero_le y)
  refine ⟨by rw [cloud_base_top_idx_acb_eq, hacb], ?_, ?_⟩
  · rw [cloud_base_top_idx_bct_eq, hact]
  · rw [cloud_base_top_clt_mask_eq, hclt]
    rfl

/-- Claim C6, witness: a cloud-free single-level column yields both indices
0 and a NaN sample. -/
theorem no_cloud_outputs_zero_and_nan_witness :
    (cloud_base_top [0] [some 0] (some 1)).idx_acb = 0
    ∧ (cloud_base_top [0] [some 0] (some 1)).idx_bct = 0
    ∧ var_below_cloud_top (cloud_base_top [0] [some 0] (some 1)).clt_mask
        ((cloud_base_top [0] [some 0] (some 1)).idx_bct : ℤ) [some 7] = none :=
  no_cloud_outputs_zero_and_nan [0] [some 0] (some 1) [some 7]
    (by decide) (by decide) (by decide)

/-- Claim C7: for a cloudy column and a non-negative selection index,
var_below_cloud_top returns the value of var at level
min(idx_bct, min(31, nlevels) - 1): the requested index when it lies in the
first min(31, nlevels) levels, the last usable level otherwise, and the
selected index is always below 31, so levels from index 31 on are never
read. -/
theorem var_below_cloud_top_clipped_select (idx : ℤ) (var : List F)
    (h0 : 0 ≤ idx) (hvar : var ≠ []) :
    var_below_cloud_top true idx var
      = var.getD (min idx.toNat (min 31 var.length - 1)) none
    ∧ min idx.toNat (min 31 var.length - 1) < 31 := by
  have hpos : 0 < var.length := List.length_pos.mpr hvar
  have hlen : (var.take 31).length = min 31 var.length := List.length_take 31 var
  have hL1 : 1 ≤ min 31 var.length := le_min (by omega) hpos
  have hL31 : min 31 var.length ≤ 31 := min_le_left _ _
  have hidx : (min (max idx 0) (((var.take 31).length : ℤ) - 1)).toNat
      = min idx.toNat (min 31 var.length - 1) := by
    rw [hlen]
    omega
  have hlt : min idx.toNat (min 31 var.length - 1) < 31 := by omega
  refine ⟨?_, hlt⟩
  show (var.take 31).getD (min (max idx 0) (((var.take 31).length : ℤ) - 1)).toNat none
      = var.getD (min idx.toNat (min 31 var.length - 1)) none
  rw [hidx]
  rw [List.getD_eq_getElem?_getD, List.getD_eq_getElem?_getD]
  rw [List.getElem?_take, if_pos hlt]

/-- Claim C7, witness: scenario 5 of the spec, sampling var = [10..50] at
idx_bct = 3 in a cloudy column returns 40. -/
theorem var_below_cloud_top_clipped_select_witness :
    var_below_cloud_top true 3 [some 10, some 20, some 30, some 40, some 50] = some 40 :=
  Eq.trans
    ((var_below_cloud_top_clipped_select 3 [some 10, some 20, some 30, some 40, some 50]
      (by decide) (by decide)).1)
    (by decide)

/-- Claim C8: for a nonempty profile both returned indices are valid
positions of the lev axis: 0 <= idx_acb < levels and 0 <= idx_bct < levels
(non-negativity holds by construction, the indices being ℕ images of numpy
argmax/argmin which are always non-negative). -/
theorem cloud_base_top_index_bounds (lev : List ℚ) (clw : List F) (t : F)
    (hne : clw ≠ []) :
    0 ≤ (cloud_base_top lev clw t).idx_acb
    ∧ (cloud_base_top lev clw t).idx_acb < clw.length
    ∧ 0 ≤ (cloud_base_top lev clw t).idx_bct
    ∧ (cloud_base_top lev clw t).idx_bct < clw.length := by
  have hcm : clw_mask clw t ≠ [] := by
    simp [clw_mask, hne]
  have h1 : idx_acb clw t < clw.length := by
    have h := argmaxB_lt (clw_mask clw t) hcm
    simpa [clw_mask] using h
  have hblen : (bct_mask lev clw t).length = clw.length := by
    simp [bct_mask]
  have hbne : bct_mask lev clw t ≠ [] := by
    intro hnil
    rw [hnil] at hblen
    exact hne (List.length_eq_zero.mp hblen.symm)
  have h2 : idx_act lev clw t < clw.length := by
    have h := argminN_lt (bct_mask lev clw t) hbne
    rwa [hblen] at h
  refine ⟨Nat.zero_le _, h1, Nat.zero_le _, ?_⟩
  rw [cloud_base_top_idx_bct_eq]
  exact lt_of_le_of_lt (Nat.sub_le _ _) h2

/-- Claim C8, witness: the bounds at the scenario 1 input. -/
theorem cloud_base_top_index_bounds_witness :
    0 ≤ (cloud_base_top [0, 1, 2, 3, 4]
      [some 0, some 0, some val2em5, some val3em5, some 0] (some thresh1em5)).idx_acb
    ∧ (cloud_base_top [0, 1, 2, 3, 4]
      [some 0, some 0, some val2em5, some val3em5, some 0] (some thresh1em5)).idx_acb
        < ([some 0, some 0, some val2em5, some val3em5, some 0] : List F).length
    ∧ 0 ≤ (cloud_base_top [0, 1, 2, 3, 4]
      [some 0, some 0, some val2em5, some val3em5, some 0] (some thresh1em5)).idx_bct
    ∧ (cloud_base_top [0, 1, 2, 3, 4]
      [some 0, some 0, some val2em5, some val3em5, some 0] (some thresh1em5)).idx_bct
        < ([some 0, some 0, some val2em5, some val3em5, some 0] : List F).length :=
  cloud_base_top_index_bounds [0, 1, 2, 3, 4]
    [some 0, some 0, some val2em5, some val3em5, some 0] (some thresh1em5) (by decide)

/-- Claim C1: whenever the lev coordinate values strictly increase with
index position (the index-0-at-top convention the source comments assume),
cloud_base_top returns idx_bct = 0 in every column, cloudy or not.  All
levels with index smaller than idx_acb are non-cloudy by definition of the
first cloudy level, so the entry of bct_mask at index 0 is 0 unless
idx_acb = 0, in which case every entry is at least 1 with the head equal
to 1; for a cloud-free column lev_acb is NaN and every entry is 0.  In all
cases the head is a minimum of bct_mask, the first-occurrence argmin is 0,
and np.maximum(0 - 1, 0) = 0. -/
theorem cloud_base_top_idx_bct_zero_of_increasing_lev
    (lev : List ℚ) (clw : List F) (t : F)
    (hlen : lev.length = clw.length) (hne : clw ≠ [])
    (hmono : lev.Pairwise (· < ·)) :
    (cloud_base_top lev clw t).idx_bct = 0 := by
  have hn : 0 < clw.length := List.length_pos.mpr hne
  suffices hact : idx_act lev clw t = 0 by
    rw [cloud_base_top_idx_bct_eq, hact]
  set f : ℕ → ℕ := fun i =>
    (if qlt (lev.getD i 0) (lev_acb lev clw t) then
      (if (clw_mask clw t).getD i false then 1 else 0)
     else 0)
    + (if qge (lev.getD i 0) (lev_acb lev clw t) then 1 else 0) with hf
  have hbct : bct_mask lev clw t = (List.range clw.length).map f := rfl
  have key : ∀ i, i < clw.length → f 0 ≤ f i := by
    by_cases hclt : clt_mask clw t = true
    · have hlevacb : lev_acb lev clw t = some (lev.getD (idx_acb clw t) 0) := by
        unfold lev_acb
        rw [if_pos hclt]
      have hcm : clw_mask clw t ≠ [] := by simp [clw_mask, hne]
      have hjlt : idx_acb clw t < clw.length := by
        have h := argmaxB_lt (clw_mask clw t) hcm
        simpa [clw_mask] using h
      by_cases hj0 : idx_acb clw t = 0
      · intro i hi
        have hge : qge (lev.getD i 0) (some (lev.getD 0 0)) = true := by
          unfold qge
          simp only [decide_eq_true_eq]
          rcases Nat.eq_zero_or_pos i with rfl | hipos
          · exact le_refl _
          · exact le_of_lt (pairwise_getD_lt lev hmono 0 i hipos (hlen ▸ hi))
        have hge0 : qge (lev.getD 0 0) (some (lev.getD 0 0)) = true := by
          unfold qge
          simp
        have hlt0 : qlt (lev.getD 0 0) (some (lev.getD 0 0)) = false := by
          unfold qlt
          simp
        have hf0 : f 0 = 1 := by
          simp only [hf]
          rw [hlevacb, hj0, hlt0, hge0]
          rw [if_neg Bool.false_ne_true, if_pos rfl]
        have hfige : 1 ≤ f i := by
          simp only [hf]
          rw [hlevacb, hj0, hge, if_pos rfl]
          exact Nat.le_add_left 1 _
        rw [hf0]
        exact hfige
      · intro i _
        have hjpos : 0 < idx_acb clw t := Nat.pos_of_ne_zero hj0
        have hjlev : idx_acb clw t < lev.length := by omega
        have hlt : qlt (lev.getD 0 0) (some (lev.getD (idx_acb clw t) 0)) = true := by
          unfold qlt
          simp only [decide_eq_true_eq]
          exact pairwise_getD_lt lev hmono 0 (idx_acb clw t) hjpos hjlev
        have hge : qge (lev.getD 0 0) (some (lev.getD (idx_acb clw t) 0)) = false := by
          unfold qge
          simp only [decide_eq_false_iff_not]
          exact not_le.mpr (pairwise_getD_lt lev hmono 0 (idx_acb clw t) hjpos hjlev)
        have hmask0 : (clw_mask clw t).getD 0 false = false :=
          argmaxB_pos_head (clw_mask clw t) hjpos
        have hf0 : f 0 = 0 := by
          simp only [hf]
          rw [hlevacb, hlt, hge]
          rw [if_pos rfl, if_neg Bool.false_ne_true, hmask0]
          rw [if_neg Bool.false_ne_true]
        rw [hf0]
        exact Nat.zero_le _
    · have hlevacb : lev_acb lev clw t = none := by
        unfold lev_acb
        rw [if_neg hclt]
      intro i _
      have hz : ∀ j : ℕ, f j = 0 := by
        intro j
        simp [hf, hlevacb, qlt, qge]
      rw [hz 0, hz i]
  unfold idx_act
  rw [hbct]
  obtain ⟨m, hm⟩ : ∃ m, clw.length = m + 1 := ⟨clw.length - 1, by omega⟩
  rw [hm, List.range_succ_eq_map, List.map_cons, List.map_map]
  apply argminN_eq_zero
  intro y hy
  rcases List.mem_map.mp hy with ⟨i, hi, rfl⟩
  have hsi : Nat.succ i < clw.length := by
    rw [hm]
    exact Nat.succ_lt_succ (List.mem_range.mp hi)
  exact key (Nat.succ i) hsi

/-- Claim C1, witness: a two-level column with increasing lev coordinates
and cloud at the top level still gets idx_bct = 0. -/
theorem cloud_base_top_idx_bct_zero_of_increasing_lev_witness :
    (cloud_base_top [0, 1] [some 2, some 0] (some 1)).idx_bct = 0 :=
  cloud_base_top_idx_bct_zero_of_increasing_lev [0, 1] [some 2, some 0] (some 1)
    (by decide) (by decide) (by decide)
